import Mathlib

/-!
Verification of the vqa_score manifest converters.

This file gives a shallow embedding of the two Python source files
`hf_db_to_input.py` and `video_dir_to_input.py`:

  * `HfDbToInput.get_video_url_from_hf` — the reference resolver that turns an
    arbitrary video-reference value into a URL or filename;
  * `HfDbToInput.extract_videos_from_dataset` — the dataset-mode manifest
    builder;
  * `HfDbToInput.rewrite_labels` and `HfDbToInput.main_hf` — the label
    rewriter and the decision structure of the dataset-mode CLI entry point;
  * `VideoDirToInput.find_video_files` and
    `VideoDirToInput.create_json_input` — the directory-mode scanner.

Python dynamic values are modelled by explicit inductive types whose cases are
exactly the shapes the source probes for; optional attributes are `Option`s;
file-system and network effects are passed in explicitly as data.
-/

set_option maxHeartbeats 1000000

namespace HfDbToInput

/-!  String primitives.  The Lean core versions of `splitOn`, `startsWith`,
`replace` and `toLower` iterate over byte positions and do not reduce inside
the kernel, so the Python string operations are embedded here as structural
recursions over the underlying character lists. -/

/-- Accumulator worker for `splitOnC`. -/
def splitOnAuxC (sep : Char) : List Char → List Char → List (List Char)
  | [], acc => [acc.reverse]
  | ch :: rest, acc =>
    if ch == sep then acc.reverse :: splitOnAuxC sep rest []
    else splitOnAuxC sep rest (ch :: acc)

/-- Python `s.split(sep)` for a one-character separator (always non-empty). -/
def splitOnC (sep : Char) (s : String) : List String :=
  (splitOnAuxC sep s.data []).map (fun l => ⟨l⟩)

/-- Python `s.startswith(pre)`. -/
def startsWithStr (pre s : String) : Bool := pre.data.isPrefixOf s.data

/-- Python substring containment `pat in s`. -/
def containsChars (pat : List Char) : List Char → Bool
  | [] => pat.isEmpty
  | ch :: rest => pat.isPrefixOf (ch :: rest) || containsChars pat rest

/-- Python substring containment `pat in s`. -/
def containsSub (pat s : String) : Bool := containsChars pat.data s.data

/-- Fuel-indexed worker for `replaceRemove`; the fuel is the length of the
remaining input, which bounds the number of steps. -/
def removeAllAux (pat : List Char) : Nat → List Char → List Char
  | 0, s => s
  | _ + 1, [] => []
  | fuel + 1, ch :: rest =>
    if pat.isPrefixOf (ch :: rest) && !pat.isEmpty then
      removeAllAux pat fuel (rest.drop (pat.length - 1))
    else ch :: removeAllAux pat fuel rest

/-- Python `s.replace(pat, "")`: delete every (left-to-right, non-overlapping)
occurrence of `pat`. -/
def replaceRemove (s pat : String) : String := ⟨removeAllAux pat.data s.data.length s.data⟩

/-- Python `str.lower` for the ASCII range (the only range the sources use). -/
def lowerChar (ch : Char) : Char :=
  if 65 ≤ ch.toNat && ch.toNat ≤ 90 then Char.ofNat (ch.toNat + 32) else ch

/-- Python `s.lower()`. -/
def toLowerStr (s : String) : String := ⟨s.data.map lowerChar⟩

/-- Python `sep.join(xs)`. -/
def joinStr (sep : String) (xs : List String) : String :=
  ⟨List.intercalate sep.data (xs.map (fun x => x.data))⟩

/-- `os.path.basename` for POSIX paths: the part after the last slash. -/
def basename (s : String) : String := (splitOnC '/' s).getLastD ""

/-- `s.startswith(("http://", "https://"))`. -/
def isHttpUrl (s : String) : Bool := startsWithStr "http://" s || startsWithStr "https://" s

/-- Python `repr` of a list of strings, as interpolated into error messages. -/
def pyListRepr (xs : List String) : String :=
  "[" ++ joinStr ", " (xs.map (fun s => "\x27" ++ s ++ "\x27")) ++ "]"

/-- A file-like sub-object: its optional `.name` attribute and its `str()`. -/
structure FileObj where
  name : Option String
  toStr : String
deriving DecidableEq

/-- `video_item.container`: optional `.name`, `.metadata` and `.file`. -/
structure Container where
  name : Option String
  metadata : Option (List (String × String))
  file : Option FileObj
deriving DecidableEq

/-- `video_item._c`, probed for `._c.file.name`. -/
structure CObj where
  file : Option FileObj
deriving DecidableEq

/-- `video_item._hf_encoded`: a dict (with an optional string under the key
`path`) or some non-dict value. -/
inductive HfEnc where
  | dictEnc (path : Option String)
  | nonDict
deriving DecidableEq

/-- A value stored under a key of a dict-shaped reference: a string, or a
value of some other type (which the key loop skips over). -/
inductive DictVal where
  | strVal (s : String)
  | otherVal
deriving DecidableEq

/-- Attributes of a generic (non-`str`, non-`dict`) Python object as probed by
`get_video_url_from_hf`; a missing attribute is `none`.  `toStr` is
`str(obj)`; `containerRaises` models the guarded try-block over the container
raising an exception. -/
structure ObjAttrs where
  hfEncoded : Option HfEnc
  container : Option Container
  containerRaises : Bool
  c : Option CObj
  path : Option String
  filename : Option String
  name : Option String
  url : Option String
  src : Option String
  toStr : String
deriving DecidableEq

/-- One raw video-reference value: a string, a generic object, a dict, or any
other value (carried as its `str()`). -/
inductive VideoItem where
  | str (s : String)
  | obj (o : ObjAttrs)
  | dict (entries : List (String × DictVal))
  | other (toStr : String)
deriving DecidableEq

/-- Outcome of the filename-extraction phase of `get_video_url_from_hf`:
either an early `return` of a finished string, or fall-through to the final
section with the `filename` variable (possibly `None`). -/
inductive ExtractResult where
  | ret (s : String)
  | fname (f : Option String)
deriving DecidableEq

/-- Lines 34–54: the `_hf_encoded`-dict branch.  `pathVal` is the value of the
`path` key (`.get("path", "")` defaults it to the empty string). -/
def hfEncodedExtract (pathVal : Option String) : ExtractResult :=
  let hf_path := pathVal.getD ""
  if startsWithStr "hf://" hf_path then
    let path_parts := splitOnC '/' (replaceRemove hf_path "hf://")
    if path_parts.length ≥ 3 then
      let dataset_path := joinStr "/" ((path_parts.drop 1).dropLast)
      let filename := path_parts.getLastD ""
      let dataset_path :=
        if containsSub "@" dataset_path then (splitOnC '@' dataset_path).headD dataset_path
        else dataset_path
      .ret ("https://huggingface.co/datasets/" ++ dataset_path ++ "/resolve/main/" ++ filename)
    else .fname none
  else if hf_path != "" then .fname (some (basename hf_path))
  else .fname none

/-- Lines 66–82: the try-block inside the container branch; `containerRaises`
set means the block raises, which is caught and replaced by a placeholder. -/
def containerTry (o : ObjAttrs) (cont : Container) (file_index : Nat) : Option String :=
  if o.containerRaises then some ("video_" ++ toString file_index ++ ".mp4")
  else
    match cont.name with
    | some n => some (basename n)
    | none =>
      match cont.metadata with
      | some metadata => (metadata.find? (fun p => p.1 == "filename")).map Prod.snd
      | none =>
        match cont.file with
        | some f =>
          match f.name with
          | some n => some (basename n)
          | none => some f.toStr
        | none => none

/-- Lines 57–82: the container branch (taken when both `container` and a
non-dict `_hf_encoded` attribute are present); never returns early. -/
def containerExtract (o : ObjAttrs) (cont : Container) (file_index : Nat) : Option String :=
  match cont.name with
  | some contName => some (basename contName)
  | none =>
    match o.c with
    | some cObj =>
      match cObj.file with
      | some f =>
        match f.name with
        | some n => some (basename n)
        | none => containerTry o cont file_index
      | none => containerTry o cont file_index
    | none => containerTry o cont file_index

/-- Lines 85–99 and 118–124: the attribute probes on a generic object, ending
with stringification for an object exposing none of the probed attributes. -/
def objAttrChain (o : ObjAttrs) : ExtractResult :=
  match o.path with
  | some p => .fname (some (basename p))
  | none =>
  match o.filename with
  | some f => .fname (some f)
  | none =>
  match o.name with
  | some n => .fname (some n)
  | none =>
  match o.url with
  | some u => .ret u
  | none =>
  match o.src with
  | some srcv => if isHttpUrl srcv then .ret srcv else .fname (some (basename srcv))
  | none =>
  .fname (some (if containsSub "/" o.toStr then basename o.toStr else o.toStr))

/-- The full attribute dispatch for a generic object (lines 34–99, 118–124). -/
def objExtract (o : ObjAttrs) (file_index : Nat) : ExtractResult :=
  match o.hfEncoded, o.container with
  | some (.dictEnc p), _ => hfEncodedExtract p
  | some .nonDict, some cont => .fname (containerExtract o cont file_index)
  | _, _ => objAttrChain o

/-- Lines 107–117: the key loop over a dict-shaped reference.  A key holding a
non-string value neither returns nor breaks: the loop continues. -/
def dictKeyLoop : List String → List (String × DictVal) → ExtractResult
  | [], _ => .fname none
  | k :: ks, entries =>
    match (entries.find? (fun p => p.1 == k)).map Prod.snd with
    | some (.strVal value) =>
      if isHttpUrl value then .ret value
      else .fname (some (basename value))
    | some .otherVal => dictKeyLoop ks entries
    | none => dictKeyLoop ks entries

/-- Lines 27–124: the whole extraction phase of `get_video_url_from_hf`. -/
def extractRef (video_item : VideoItem) (file_index : Nat) : ExtractResult :=
  match video_item with
  | .str s =>
    if isHttpUrl s then .ret s
    else if startsWithStr "/" s then .fname (some (basename s))
    else .fname (some s)
  | .obj o => objExtract o file_index
  | .dict entries => dictKeyLoop ["url", "src", "path", "filename", "name"] entries
  | .other str_item =>
    .fname (some (if containsSub "/" str_item then basename str_item else str_item))

/-- Lines 126–135: combine an extracted filename with the dataset name when
the filename is truthy and not a sentinel, else fall back to the filename or a
synthesized placeholder.  (The source also computes an unused `dataset_clean`
variable, omitted here.) -/
def resolveTail (filename : Option String) (dataset_name : String) (file_index : Nat) : String :=
  match filename with
  | some f =>
    if f != "" && dataset_name != "" && f != "None" && !(containsSub "<none>" (toLowerStr f)) then
      "https://huggingface.co/datasets/" ++ dataset_name ++ "/resolve/main/" ++ f
    else if f != "" then f
    else "video_" ++ toString file_index ++ ".mp4"
  | none => "video_" ++ toString file_index ++ ".mp4"

/-- `get_video_url_from_hf(video_item, dataset_name, file_index)`. -/
def get_video_url_from_hf (video_item : VideoItem) (dataset_name : String)
    (file_index : Nat) : String :=
  match extractRef video_item file_index with
  | .ret s => s
  | .fname f => resolveTail f dataset_name file_index

/-- Python `str()` of a record value, as used by the label extraction
`str(item[label_column])`.  `str()` of a dict is its repr; it is modelled here
by the dict keys, a case no claim exercises. -/
def pyStr : VideoItem → String
  | .str s => s
  | .obj o => o.toStr
  | .dict entries => joinStr ", " (entries.map Prod.fst)
  | .other t => t

/-- One dataset record: a mapping from field name to value. -/
abbrev Record := List (String × VideoItem)

/-- Python `item[key]` with a `key in item` test: the value, if present. -/
def lookupField (item : Record) (key : String) : Option VideoItem :=
  (item.find? (fun p => p.1 == key)).map Prod.snd

/-- One manifest entry, as appended by the builder and serialized to JSON. -/
structure Entry where
  video : String
  label : String
deriving DecidableEq

/-- One split of a loaded dataset: an optional schema (`column_names`, absent
for streaming iterables) and the records the iterator yields. -/
structure SplitData where
  column_names : Option (List String)
  items : List Record
deriving DecidableEq

/-- The value returned by `load_dataset`: a single split, or a dict from
split name to split. -/
inductive HFDataset where
  | single (data : SplitData)
  | multi (splits : List (String × SplitData))
deriving DecidableEq

/-- Python truthiness of an optional string (`None` and `""` are falsy). -/
def truthyStr : Option String → Bool
  | some s => s != ""
  | none => false

/-- Line 197: `if max_items and i >= max_items` (`None` and `0` are falsy). -/
def maxReached (max_items : Option Nat) (i : Nat) : Bool :=
  match max_items with
  | some m => m != 0 && decide (i ≥ m)
  | none => false

/-- Lines 194–224: the per-record loop of `extract_videos_from_dataset`.
A record without the video field raises `KeyError`, which the `except` clause
turns into a logged skip of that record alone. -/
def extractLoop (video_column : String) (label_column : Option String)
    (use_label : Option String) (default_label : String) (dataset_name : String)
    (max_items : Option Nat) : Nat → List Record → List Entry
  | _, [] => []
  | i, item :: rest =>
    if maxReached max_items i then []
    else
      match lookupField item video_column with
      | some video_data =>
        let video_url := get_video_url_from_hf video_data dataset_name i
        let label :=
          if truthyStr use_label then use_label.getD ""
          else if truthyStr label_column && (lookupField item (label_column.getD "")).isSome then
            pyStr ((lookupField item (label_column.getD "")).getD (.str ""))
          else default_label
        ⟨video_url, label⟩ ::
          extractLoop video_column label_column use_label default_label dataset_name
            max_items (i + 1) rest
      | none =>
        extractLoop video_column label_column use_label default_label dataset_name
          max_items (i + 1) rest

/-- Lines 137–226: `extract_videos_from_dataset`.  The two `raise ValueError`
sites become `Except.error` carrying the exact message. -/
def extract_videos_from_dataset (dataset : HFDataset) (dataset_name : String)
    (video_column : String) (label_column : Option String) (split : String)
    (max_items : Option Nat) (default_label : String) (change_label : Option String) :
    Except String (List Entry) :=
  let getData : Except String SplitData :=
    match dataset with
    | .multi splits =>
      match (splits.find? (fun p => p.1 == split)).map Prod.snd with
      | none =>
        .error ("Split \x27" ++ split ++ "\x27 not found. Available splits: "
          ++ pyListRepr (splits.map Prod.fst))
      | some data => .ok data
    | .single data => .ok data
  match getData with
  | .error e => .error e
  | .ok data =>
    let colCheck : Except String (Option String) :=
      match data.column_names with
      | some cols =>
        if !(cols.contains video_column) then
          .error ("Video column \x27" ++ video_column ++ "\x27 not found. Available columns: "
            ++ pyListRepr cols)
        else if truthyStr label_column && !(cols.contains (label_column.getD "")) then
          .ok none
        else .ok label_column
      | none => .ok label_column
    match colCheck with
    | .error e => .error e
    | .ok lc =>
      let use_label := if truthyStr change_label then change_label else none
      .ok (extractLoop video_column lc use_label default_label dataset_name max_items 0 data.items)

/-- A JSON scalar as loaded from an existing manifest: a string or any other
JSON value (opaque). -/
inductive JsonVal where
  | s (v : String)
  | otherJson (tag : Nat)
deriving DecidableEq

/-- One element of a loaded JSON manifest: an object or any non-dict value. -/
inductive JsonItem where
  | obj (fields : List (String × JsonVal))
  | nonDict (tag : Nat)
deriving DecidableEq

/-- Lookup of a key in a loaded JSON object. -/
def lookupJ (fields : List (String × JsonVal)) (key : String) : Option JsonVal :=
  (fields.find? (fun p => p.1 == key)).map Prod.snd

/-- Lines 260–263: the label-rewrite pass of `main`
(`if isinstance(item, dict) and "label" in item: item["label"] = change_label`). -/
def rewrite_labels (json_data : List JsonItem) (new_label : String) : List JsonItem :=
  json_data.map (fun item =>
    match item with
    | .obj fields =>
      if (fields.find? (fun p => p.1 == "label")).isSome then
        .obj (fields.map (fun p => if p.1 == "label" then (p.1, .s new_label) else p))
      else item
    | _ => item)

/-- The parsed CLI arguments of the dataset-mode entry point. -/
structure MainArgs where
  database : Option String
  change_label : Option String
  video_column : String
  label_column : Option String
  split : String
  max_items : Option Nat
  label : String
deriving DecidableEq

/-- The external effects one run of `main` observes: whether the output file
exists, what `json.load` of it yields (`none` = the load raises), what
`load_dataset` yields (`none` = the load raises), and whether writing the
output file succeeds. -/
structure MainEnv where
  output_exists : Bool
  existing_json : Option (List JsonItem)
  load_dataset : Option HFDataset
  write_ok : Bool
deriving DecidableEq

/-- What one run of `main` writes to the output file. -/
inductive Written where
  | nothing
  | manifest (entries : List Entry)
  | rewritten (items : List JsonItem)
deriving DecidableEq

/-- Lines 249–336: the decision structure of `main` after argument parsing.
The result is the Python return value of `main` — `some code`, or `none` for
the implicit `None` when control falls off the end of the `try` block — paired
with what was written to the output file.  Any exception raised inside the
`try` block lands in the `except` clause, which returns 1. -/
def main_hf (args : MainArgs) (env : MainEnv) : Option Nat × Written :=
  if truthyStr args.change_label && env.output_exists then
    match env.existing_json with
    | none => (some 1, .nothing)
    | some json_data =>
      if env.write_ok then
        (some 0, .rewritten (rewrite_labels json_data (args.change_label.getD "")))
      else (some 1, .nothing)
  else if !(truthyStr args.database) then (some 1, .nothing)
  else
    match env.load_dataset with
    | none => (some 1, .nothing)
    | some dataset =>
      match extract_videos_from_dataset dataset (args.database.getD "") args.video_column
          args.label_column args.split args.max_items args.label args.change_label with
      | .error _ => (some 1, .nothing)
      | .ok json_data =>
        if json_data.isEmpty then (some 1, .nothing)
        else if env.write_ok then (none, .manifest json_data)
        else (some 1, .nothing)

end HfDbToInput

namespace VideoDirToInput

/-- The recognized video file extensions (`VIDEO_EXTENSIONS`). -/
def VIDEO_EXTENSIONS : List String :=
  [".mp4", ".avi", ".mov", ".mkv", ".wmv", ".flv", ".webm", ".m4v", ".3gp"]

/-- One entry of the scanned directory listing (`Path.iterdir()`), with its
`is_file()` status. -/
structure DirEntry where
  path : String
  is_file : Bool
deriving DecidableEq

/-- `pathlib.PurePath.suffix`: the final extension of the path name, empty
when the name has no dot past its first character. -/
def pathSuffix (path : String) : String :=
  let name := HfDbToInput.basename path
  let parts := HfDbToInput.splitOnC '.' name
  let lastPart := parts.getLastD name
  if parts.length ≥ 2 ∧ name.length ≥ lastPart.length + 2 then "." ++ lastPart
  else ""

/-- Line 36: the filter applied to each directory entry. -/
def isVideoFile (d : DirEntry) : Bool :=
  d.is_file && VIDEO_EXTENSIONS.contains (HfDbToInput.toLowerStr (pathSuffix d.path))

/-- Code-point lexicographic order on character lists: Python string `<=`. -/
def charListLe : List Char → List Char → Bool
  | [], _ => true
  | _ :: _, [] => false
  | a :: as, b :: bs => if a < b then true else if b < a then false else charListLe as bs

/-- Python string comparison `a <= b` (code-point lexicographic). -/
def pyStrLe (a b : String) : Bool := charListLe a.data b.data

/-- Lines 16–39: `find_video_files`, with the filesystem listing passed in
explicitly (directory enumeration is an external collaborator): keep the
regular files whose lowercased suffix is a recognized video extension, then
sort.  Python `sorted` on strings is modelled by insertion sort under the
code-point lexicographic order, which computes the same ascending ordering. -/
def find_video_files (listing : List DirEntry) : List String :=
  List.insertionSort (fun a b => pyStrLe a b = true)
    ((listing.filter isVideoFile).map DirEntry.path)

/-- Lines 41–52: `create_json_input`. -/
def create_json_input (video_files : List String) (label : String) :
    List HfDbToInput.Entry :=
  video_files.map (fun video_path => ⟨video_path, label⟩)

end VideoDirToInput

namespace HfDbToInput

theorem append_ne_empty_left (a b : String) (h : a ≠ "") : a ++ b ≠ "" := by
  intro heq
  apply h
  have hd : a.data ++ b.data = [] := by
    have hc := congrArg String.data heq
    simpa [String.data_append] using hc
  have ha : a.data = [] := (List.append_eq_nil.mp hd).1
  cases a with
  | mk data => simp at ha; subst ha; rfl

theorem isHttpUrl_ne_empty {s : String} (h : isHttpUrl s = true) : s ≠ "" := by
  intro heq
  subst heq
  exact absurd h (by decide)

theorem resolveTail_ne_empty (f : Option String) (dn : String) (i : Nat) :
    resolveTail f dn i ≠ "" := by
  have hv : ("video_" ++ toString i ++ ".mp4") ≠ "" :=
    append_ne_empty_left _ _ (append_ne_empty_left _ _ (by decide))
  cases f with
  | none => exact hv
  | some f =>
    simp only [resolveTail]
    split
    · exact append_ne_empty_left _ _
        (append_ne_empty_left _ _ (append_ne_empty_left _ _ (by decide)))
    · split
      · next hne => exact bne_iff_ne.mp hne
      · exact hv

theorem dictKeyLoop_ret_isHttp :
    ∀ (ks : List String) (entries : List (String × DictVal)) (s : String),
      dictKeyLoop ks entries = .ret s → isHttpUrl s = true
  | [], _, s => by intro h; simp [dictKeyLoop] at h
  | k :: ks, entries, s => by
    intro h
    unfold dictKeyLoop at h
    split at h
    · split at h
      · next hhttp => cases h; exact hhttp
      · cases h
    · exact dictKeyLoop_ret_isHttp ks entries s h
    · exact dictKeyLoop_ret_isHttp ks entries s h

theorem hfEncodedExtract_ret_ne_empty (p : Option String) (s : String)
    (h : hfEncodedExtract p = .ret s) : s ≠ "" := by
  unfold hfEncodedExtract at h
  dsimp only at h
  split at h
  · split at h
    · cases h
      exact append_ne_empty_left _ _
        (append_ne_empty_left _ _ (append_ne_empty_left _ _ (by decide)))
    · cases h
  · split at h <;> cases h

theorem objAttrChain_ret (o : ObjAttrs) (s : String) (h : objAttrChain o = .ret s) :
    o.url = some s ∨ isHttpUrl s = true := by
  unfold objAttrChain at h
  split at h
  · cases h
  · split at h
    · cases h
    · split at h
      · cases h
      · split at h
        · next u heq => cases h; exact Or.inl heq
        · split at h
          · split at h
            · next hhttp => cases h; exact Or.inr hhttp
            · cases h
          · cases h

theorem extractRef_ret_ne_empty (v : VideoItem) (i : Nat) (s : String)
    (hu : ∀ o : ObjAttrs, v = .obj o → o.url ≠ some "")
    (h : extractRef v i = .ret s) : s ≠ "" := by
  cases v with
  | str s0 =>
    simp only [extractRef] at h
    split at h
    · next hhttp => cases h; exact isHttpUrl_ne_empty hhttp
    · split at h <;> cases h
  | obj o =>
    simp only [extractRef, objExtract] at h
    split at h
    · exact hfEncodedExtract_ret_ne_empty _ _ h
    · cases h
    · rcases objAttrChain_ret o s h with hurl | hhttp
      · intro heq
        subst heq
        exact hu o rfl hurl
      · exact isHttpUrl_ne_empty hhttp
  | dict es =>
    simp only [extractRef] at h
    exact isHttpUrl_ne_empty (dictKeyLoop_ret_isHttp _ _ _ h)
  | other t =>
    simp only [extractRef] at h
    cases h

/-- C1 counterexample: an object whose `url` attribute holds the empty string
is returned verbatim (line 93), so the resolver result is the empty string —
refuting the claim that the result is always a non-empty string. -/
theorem c1_counterexample :
    get_video_url_from_hf
      (.obj ⟨none, none, false, none, none, none, none, some "", none, "o"⟩)
      "alice/myset" 0 = "" := rfl

/-- C1 (amended): the resolver is total (it is a function in this embedding,
and the only exception site — the container try-block — is caught and replaced
by a placeholder), and its result is a non-empty string for every input except
an object whose `url` attribute holds the empty string, which is returned
verbatim. -/
theorem c1_total_nonempty (video_item : VideoItem) (dataset_name : String) (file_index : Nat)
    (hu : ∀ o : ObjAttrs, video_item = .obj o → o.url ≠ some "") :
    get_video_url_from_hf video_item dataset_name file_index ≠ "" := by
  unfold get_video_url_from_hf
  split
  · next s hs => exact extractRef_ret_ne_empty _ _ _ hu hs
  · exact resolveTail_ne_empty _ _ _

/-- C1 witness: the amended totality theorem applied at a bare-filename
reference. -/
theorem c1_witness : get_video_url_from_hf (.str "clip9.mp4") "" 7 ≠ "" :=
  c1_total_nonempty (.str "clip9.mp4") "" 7 (fun _ h => nomatch h)

/-- C2: a reference object whose `_hf_encoded` record has path
`hf://datasets/alice/myset@abcd123/clip7.mp4` resolves (for every dataset name
and index, and whatever its other attributes) to
`https://huggingface.co/datasets/alice/myset/resolve/main/clip7.mp4`:
the scheme is stripped, the `@...` revision qualifier is discarded from the
dataset path, and the HTTPS resolve URL is reassembled. -/
theorem c2_hf_path_resolution (cont : Option Container) (cr : Bool) (c : Option CObj)
    (p fn nm u sr : Option String) (ts : String) (dataset_name : String) (file_index : Nat) :
    get_video_url_from_hf
      (.obj ⟨some (.dictEnc (some "hf://datasets/alice/myset@abcd123/clip7.mp4")),
        cont, cr, c, p, fn, nm, u, sr, ts⟩)
      dataset_name file_index
    = "https://huggingface.co/datasets/alice/myset/resolve/main/clip7.mp4" := rfl

/-- C3: whenever the extraction phase produced a bare filename (not an early
`return` of a full URL), a dataset identifier is available, and the filename
is non-empty and not a sentinel none value, the resolver returns
`https://huggingface.co/datasets/<dataset>/resolve/main/<filename>`. -/
theorem c3_filename_dataset_url (v : VideoItem) (dn : String) (i : Nat) (f : String)
    (hx : extractRef v i = .fname (some f))
    (h1 : f ≠ "") (h2 : dn ≠ "") (h3 : f ≠ "None")
    (h4 : containsSub "<none>" (toLowerStr f) = false) :
    get_video_url_from_hf v dn i
      = "https://huggingface.co/datasets/" ++ dn ++ "/resolve/main/" ++ f := by
  unfold get_video_url_from_hf
  rw [hx]
  unfold resolveTail
  have b1 : (f != "") = true := bne_iff_ne.mpr h1
  have b2 : (dn != "") = true := bne_iff_ne.mpr h2
  have b3 : (f != "None") = true := bne_iff_ne.mpr h3
  simp [b1, b2, b3, h4]

/-- C3 witness: the bare filename `clip9.mp4` with dataset identifier
`alice/myset` resolves to the HTTPS resolve URL. -/
theorem c3_witness :
    get_video_url_from_hf (.str "clip9.mp4") "alice/myset" 0
      = "https://huggingface.co/datasets/alice/myset/resolve/main/clip9.mp4" :=
  c3_filename_dataset_url (.str "clip9.mp4") "alice/myset" 0 "clip9.mp4"
    rfl (by decide) (by decide) (by decide) (by decide)

end HfDbToInput

namespace HfDbToInput

theorem extractLoop_length (vc : String) (lc ul : Option String) (dl dn : String) :
    ∀ (items : List Record) (i : Nat),
      (extractLoop vc lc ul dl dn none i items).length
        + items.countP (fun r => (lookupField r vc).isNone) = items.length := by
  intro items
  induction items with
  | nil => intro i; simp [extractLoop]
  | cons item rest ih =>
    intro i
    have hm : maxReached none i = false := rfl
    cases hl : lookupField item vc with
    | some vd =>
      simp only [extractLoop, hm, Bool.false_eq_true, if_false, hl, List.length_cons,
        List.countP_cons, Option.isNone_some, if_false]
      have := ih (i + 1)
      omega
    | none =>
      simp only [extractLoop, hm, Bool.false_eq_true, if_false, hl, List.countP_cons,
        Option.isNone_none, if_true, List.length_cons]
      have := ih (i + 1)
      omega

/-- C4: in dataset mode, a record on which processing raises — in this
embedding, exactly a record whose video field is absent, which raises
`KeyError` — is caught and skipped on its own; all other records still
produce entries, so the final count is the number of iterated records minus
the number of failing ones. -/
theorem c4_per_record_errors_skipped (items : List Record) (dn vc : String)
    (lc : Option String) (split : String) (dl : String) (cl : Option String) :
    ∃ l, extract_videos_from_dataset (.single ⟨none, items⟩) dn vc lc split none dl cl
        = .ok l
      ∧ l.length + items.countP (fun r => (lookupField r vc).isNone) = items.length := by
  refine ⟨_, rfl, ?_⟩
  exact extractLoop_length vc lc _ dl dn items 0

/-- C7: when the dataset is multi-split and the requested split is absent,
`extract_videos_from_dataset` raises the configuration ValueError whose
message lists the available split names — whatever the records contain,
so before any record is processed. -/
theorem c7_missing_split_error (splits : List (String × SplitData)) (dn vc : String)
    (lc : Option String) (split : String) (mi : Option Nat) (dl : String) (cl : Option String)
    (h : splits.find? (fun p => p.1 == split) = none) :
    extract_videos_from_dataset (.multi splits) dn vc lc split mi dl cl
      = .error ("Split \x27" ++ split ++ "\x27 not found. Available splits: "
          ++ pyListRepr (splits.map Prod.fst)) := by
  simp [extract_videos_from_dataset, h]

/-- C7 witness: requesting split `test` when only `train` exists yields the
error naming the available splits. -/
theorem c7_witness :
    extract_videos_from_dataset (.multi [("train", ⟨none, []⟩)]) "d" "video" none "test"
      none "L" none
      = .error "Split \x27test\x27 not found. Available splits: [\x27train\x27]" :=
  c7_missing_split_error [("train", ⟨none, []⟩)] "d" "video" none "test" none "L" none rfl

theorem extractLoop_max_take (vc : String) (lc ul : Option String) (dl dn : String)
    (m : Nat) (hm : m ≠ 0) :
    ∀ (items : List Record) (i : Nat),
      extractLoop vc lc ul dl dn (some m) i items
        = extractLoop vc lc ul dl dn none i (items.take (m - i)) := by
  intro items
  induction items with
  | nil => intro i; simp [extractLoop]
  | cons item rest ih =>
    intro i
    by_cases hi : i ≥ m
    · have h1 : maxReached (some m) i = true := by
        simp [maxReached, hm, hi]
      have h2 : m - i = 0 := Nat.sub_eq_zero_of_le hi
      rw [h2]
      simp [extractLoop, h1]
    · have h1 : maxReached (some m) i = false := by
        simp [maxReached, hi]
      have h2 : m - i = (m - (i + 1)) + 1 := by omega
      have hm0 : maxReached none i = false := rfl
      rw [h2, List.take_succ_cons]
      simp only [extractLoop, h1, hm0, Bool.false_eq_true, if_false]
      cases hl : lookupField item vc with
      | some vd => simp [hl, ih (i + 1)]
      | none => simp [hl, ih (i + 1)]

/-- C8: with `max_items = 3` on a split of 10 records whose first 3 all carry
the video field, the builder produces exactly 3 entries, and they are exactly
what the builder produces from the first 3 records alone — reaching the cap
stops iteration and is not an error. -/
theorem c8_max_items_cap (items : List Record) (dn vc : String) (lc : Option String)
    (split : String) (dl : String) (cl : Option String)
    (hlen : items.length = 10)
    (hpresent : ∀ r ∈ items.take 3, (lookupField r vc).isSome) :
    ∃ l, extract_videos_from_dataset (.single ⟨none, items⟩) dn vc lc split (some 3) dl cl
        = .ok l
      ∧ l.length = 3
      ∧ extract_videos_from_dataset (.single ⟨none, items.take 3⟩) dn vc lc split none dl cl
        = .ok l := by
  have hrw := extractLoop_max_take vc lc (if truthyStr cl then cl else none) dl dn 3
    (by decide) items 0
  simp only [Nat.sub_zero] at hrw
  refine ⟨_, rfl, ?_, ?_⟩
  · rw [hrw]
    have hcount : (items.take 3).countP (fun r => (lookupField r vc).isNone) = 0 := by
      refine List.countP_eq_zero.mpr ?_
      intro r hr
      have h := hpresent r hr
      simp only [Option.isNone_iff_eq_none]
      exact Option.ne_none_iff_isSome.mpr h
    have hlen3 : (items.take 3).length = 3 := by
      simp [List.length_take, hlen]
    have := extractLoop_length vc lc (if truthyStr cl then cl else none) dl dn (items.take 3) 0
    omega
  · show Except.ok _ = Except.ok _
    rw [hrw]

/-- C8 witness: a concrete 10-record split capped at 3 items. -/
theorem c8_witness :
    ∃ l, extract_videos_from_dataset
        (.single ⟨none, [[("video", .str "a0.mp4")], [("video", .str "a1.mp4")],
          [("video", .str "a2.mp4")], [("video", .str "a3.mp4")], [("video", .str "a4.mp4")],
          [("video", .str "a5.mp4")], [("video", .str "a6.mp4")], [("video", .str "a7.mp4")],
          [("video", .str "a8.mp4")], [("video", .str "a9.mp4")]]⟩)
        "d" "video" none "train" (some 3) "L" none = .ok l
      ∧ l.length = 3
      ∧ extract_videos_from_dataset
          (.single ⟨none, [[("video", .str "a0.mp4")], [("video", .str "a1.mp4")],
            [("video", .str "a2.mp4")]]⟩)
          "d" "video" none "train" none "L" none = .ok l :=
  c8_max_items_cap
    [[("video", .str "a0.mp4")], [("video", .str "a1.mp4")], [("video", .str "a2.mp4")],
      [("video", .str "a3.mp4")], [("video", .str "a4.mp4")], [("video", .str "a5.mp4")],
      [("video", .str "a6.mp4")], [("video", .str "a7.mp4")], [("video", .str "a8.mp4")],
      [("video", .str "a9.mp4")]]
    "d" "video" none "train" "L" none rfl (by decide)

end HfDbToInput

namespace HfDbToInput

theorem labelMap_fst (X : String) (p : String × JsonVal) :
    (if p.1 == "label" then (p.1, JsonVal.s X) else p).1 = p.1 := by
  split <;> rfl

theorem labelMap_pred (X k : String) :
    ((fun q : String × JsonVal => q.1 == k) ∘
        (fun p => if p.1 == "label" then (p.1, JsonVal.s X) else p))
      = (fun q : String × JsonVal => q.1 == k) := by
  funext p
  simp only [Function.comp_apply]
  exact congrArg (fun x => x == k) (labelMap_fst X p)

theorem labelMap_keys (X : String) (fs : List (String × JsonVal)) :
    (fs.map (fun p => if p.1 == "label" then (p.1, JsonVal.s X) else p)).map Prod.fst
      = fs.map Prod.fst := by
  induction fs with
  | nil => rfl
  | cons p rest ih =>
    simp only [List.map_cons]
    rw [ih]
    simp only [List.cons.injEq, and_true]
    exact labelMap_fst X p

theorem labelMap_lookup_label (X : String) (fs : List (String × JsonVal)) :
    lookupJ (fs.map (fun p => if p.1 == "label" then (p.1, JsonVal.s X) else p)) "label"
      = (lookupJ fs "label").map (fun _ => JsonVal.s X) := by
  simp only [lookupJ, List.find?_map]
  rw [labelMap_pred X "label"]
  cases hf : fs.find? (fun q => q.1 == "label") with
  | none => rfl
  | some p =>
    have hp0 := List.find?_some hf
    have hp : (p.1 == "label") = true := hp0
    simp only [Option.map_some']
    rw [show (if (p.1 == "label") = true then (p.1, JsonVal.s X) else p)
      = (p.1, JsonVal.s X) from if_pos hp]

theorem labelMap_lookup_other (X k : String) (hk : k ≠ "label")
    (fs : List (String × JsonVal)) :
    lookupJ (fs.map (fun p => if p.1 == "label" then (p.1, JsonVal.s X) else p)) k
      = lookupJ fs k := by
  simp only [lookupJ, List.find?_map]
  rw [labelMap_pred X k]
  cases hf : fs.find? (fun q => q.1 == k) with
  | none => rfl
  | some p =>
    have hp0 := List.find?_some hf
    have hp : (p.1 == k) = true := hp0
    have hp1 : p.1 = k := by simpa using hp
    have hnl : ¬ ((p.1 == "label") = true) := by
      simp only [beq_iff_eq, hp1]
      exact hk
    simp only [Option.map_some']
    rw [show (if (p.1 == "label") = true then (p.1, JsonVal.s X) else p) = p from if_neg hnl]

/-- C5: the label-rewrite pass maps an N-entry loaded manifest to N entries in
the same order; a non-dict entry is left untouched, a dict entry without a
`label` key is left entirely untouched, and a dict entry with a `label` key
keeps its key sequence, gets `label` set to the override, and keeps every
other key (in particular `video`) at its old value. -/
theorem c5_label_rewriter (data : List JsonItem) (X : String) :
    (rewrite_labels data X).length = data.length ∧
    List.Forall₂ (fun a b =>
      (∀ t, a = JsonItem.nonDict t → b = a) ∧
      (∀ fs, a = JsonItem.obj fs →
        (lookupJ fs "label" = none → b = a) ∧
        (∀ lv, lookupJ fs "label" = some lv → ∃ fs2, b = JsonItem.obj fs2
          ∧ fs2.map Prod.fst = fs.map Prod.fst
          ∧ lookupJ fs2 "label" = some (JsonVal.s X)
          ∧ ∀ k, k ≠ "label" → lookupJ fs2 k = lookupJ fs k)))
      data (rewrite_labels data X) := by
  constructor
  · simp [rewrite_labels]
  · induction data with
    | nil => exact List.Forall₂.nil
    | cons a rest ih =>
      simp only [rewrite_labels, List.map_cons] at ih ⊢
      refine List.Forall₂.cons ?_ ih
      cases a with
      | nonDict t =>
        refine ⟨fun _ _ => rfl, fun fs heq => nomatch heq⟩
      | obj fs =>
        by_cases h : (fs.find? (fun p => p.1 == "label")).isSome = true
        · simp only [h, if_true]
          refine ⟨fun t heq => (nomatch heq), ?_⟩
          intro fs0 heq
          cases heq
          constructor
          · intro hnone
            exfalso
            simp only [lookupJ, Option.map_eq_none'] at hnone
            rw [hnone] at h
            simp at h
          · intro lv hsome
            refine ⟨_, rfl, labelMap_keys X fs, ?_, fun k hk => labelMap_lookup_other X k hk fs⟩
            rw [labelMap_lookup_label, hsome]
            rfl
        · simp only [h, if_false]
          refine ⟨fun t heq => (nomatch heq), ?_⟩
          intro fs0 heq
          cases heq
          constructor
          · intro _; rfl
          · intro lv hsome
            exfalso
            simp only [lookupJ] at hsome
            rcases Option.map_eq_some'.mp hsome with ⟨p, hp, _⟩
            rw [hp] at h
            simp at h

end HfDbToInput

namespace HfDbToInput

/-- C6 counterexample: on a successful build-and-write run (database given,
one record extracted, write succeeds), `main` falls off the end of the `try`
block and returns Python `None` — not 0 as claimed for every non-failing
path. -/
theorem c6_counterexample :
    (main_hf ⟨some "d", none, "video", none, "train", none, "L"⟩
        ⟨false, none, some (.single ⟨none, [[("video", .str "clip9.mp4")]]⟩), true⟩).1 = none
    ∧ ¬ (main_hf ⟨some "d", none, "video", none, "train", none, "L"⟩
        ⟨false, none, some (.single ⟨none, [[("video", .str "clip9.mp4")]]⟩), true⟩).1
      = some 0 := by
  constructor
  · rfl
  · intro h
    exact nomatch h.symm.trans rfl

/-- C6 (amended): `main` returns 0 exactly on a successful label-rewriter run;
it returns the implicit Python `None` (not 0) exactly on a successful
build-and-write run; and it returns 1 in every other case (missing database,
exception, zero extracted entries, failed write). -/
theorem c6_exit_codes (args : MainArgs) (env : MainEnv) :
    ((main_hf args env).1 = some 0 ↔
      (truthyStr args.change_label && env.output_exists) = true
        ∧ env.existing_json.isSome = true ∧ env.write_ok = true)
    ∧ ((main_hf args env).1 = none ↔
      (truthyStr args.change_label && env.output_exists) = false
        ∧ truthyStr args.database = true
        ∧ ∃ ds l, env.load_dataset = some ds
            ∧ extract_videos_from_dataset ds (args.database.getD "") args.video_column
                args.label_column args.split args.max_items args.label args.change_label = .ok l
            ∧ l ≠ [] ∧ env.write_ok = true)
    ∧ ((main_hf args env).1 = some 0 ∨ (main_hf args env).1 = some 1
        ∨ (main_hf args env).1 = none) := by
  obtain ⟨oe, ej, ld, wo⟩ := env
  by_cases h1 : (truthyStr args.change_label && oe) = true
  · rw [show (main_hf args ⟨oe, ej, ld, wo⟩)
        = (if truthyStr args.change_label && oe then
            match ej with
            | none => (some 1, Written.nothing)
            | some json_data =>
              if wo then
                (some 0, .rewritten (rewrite_labels json_data (args.change_label.getD "")))
              else (some 1, .nothing)
          else if !(truthyStr args.database) then (some 1, .nothing)
          else
            match ld with
            | none => (some 1, .nothing)
            | some dataset =>
              match extract_videos_from_dataset dataset (args.database.getD "")
                  args.video_column args.label_column args.split args.max_items args.label
                  args.change_label with
              | .error _ => (some 1, .nothing)
              | .ok json_data =>
                if json_data.isEmpty then (some 1, .nothing)
                else if wo then (none, .manifest json_data)
                else (some 1, .nothing)) from rfl]
    rw [if_pos h1]
    cases ej with
    | none => simp [h1]
    | some jd => cases wo <;> simp [h1]
  · have h1f : (truthyStr args.change_label && oe) = false := by
      simpa using h1
    rw [show (main_hf args ⟨oe, ej, ld, wo⟩)
        = (if truthyStr args.change_label && oe then
            match ej with
            | none => (some 1, Written.nothing)
            | some json_data =>
              if wo then
                (some 0, .rewritten (rewrite_labels json_data (args.change_label.getD "")))
              else (some 1, .nothing)
          else if !(truthyStr args.database) then (some 1, .nothing)
          else
            match ld with
            | none => (some 1, .nothing)
            | some dataset =>
              match extract_videos_from_dataset dataset (args.database.getD "")
                  args.video_column args.label_column args.split args.max_items args.label
                  args.change_label with
              | .error _ => (some 1, .nothing)
              | .ok json_data =>
                if json_data.isEmpty then (some 1, .nothing)
                else if wo then (none, .manifest json_data)
                else (some 1, .nothing)) from rfl]
    rw [if_neg h1]
    by_cases h2 : truthyStr args.database = true
    · rw [if_neg (by simp [h2])]
      cases ld with
      | none => simp [h1f, h2]
      | some ds =>
        cases hx : extract_videos_from_dataset ds (args.database.getD "") args.video_column
            args.label_column args.split args.max_items args.label args.change_label with
        | error e => simp [h1f, h2, hx]
        | ok jd =>
          cases jd with
          | nil => simp [h1f, h2, hx]
          | cons j js => cases wo <;> simp [h1f, h2, hx]
    · have h2f : truthyStr args.database = false := by simpa using h2
      rw [if_pos (by simp [h2f])]
      simp [h1f, h2f]

end HfDbToInput

namespace HfDbToInput

/-- C10: an empty-string override label is falsy in Python, so it is treated
exactly as if no override were supplied: the builder behaves identically to
the no-override call (falling back to the per-record label — the label-column
value when present, else the default), and `main` does not take the
label-rewriter path even when the output file exists. -/
theorem c10_empty_change_label :
    (∀ (ds : HFDataset) (dn vc : String) (lc : Option String) (split : String)
        (mi : Option Nat) (dl : String),
      extract_videos_from_dataset ds dn vc lc split mi dl (some "")
        = extract_videos_from_dataset ds dn vc lc split mi dl none)
    ∧ (∀ (db : Option String) (vc : String) (lc : Option String) (split : String)
        (mi : Option Nat) (dl : String) (env : MainEnv),
      main_hf ⟨db, some "", vc, lc, split, mi, dl⟩ env
        = main_hf ⟨db, none, vc, lc, split, mi, dl⟩ env)
    ∧ (∀ (r : Record) (lcName : String) (v : VideoItem) (dn vc : String) (split dl : String),
      lcName ≠ "" → lookupField r vc = some v →
      extract_videos_from_dataset (.single ⟨none, [r]⟩) dn vc (some lcName) split none dl
          (some "")
        = .ok [⟨get_video_url_from_hf v dn 0,
            match lookupField r lcName with
            | some lv => pyStr lv
            | none => dl⟩]) := by
  refine ⟨fun ds dn vc lc split mi dl => rfl, fun db vc lc split mi dl env => ?_, ?_⟩
  · obtain ⟨oe, ej, ld, wo⟩ := env
    cases ld with
    | none => rfl
    | some ds => rfl
  · intro r lcName v dn vc split dl hlc hv
    have hb : (lcName != "") = true := bne_iff_ne.mpr hlc
    show Except.ok (extractLoop vc (some lcName) none dl dn none 0 [r]) = _
    simp only [extractLoop, lookupField] at *
    rw [hv]
    have hm : maxReached none 0 = false := rfl
    simp only [hm, Bool.false_eq_true, if_false, truthyStr, hb, Bool.true_and,
      Bool.false_eq_true]
    cases hll : (List.find? (fun p => p.1 == lcName) r).map Prod.snd with
    | some lv => simp [hll]
    | none => simp [hll]

end HfDbToInput

namespace HfDbToInput

/-- C10 witness: with override `""`, a record carrying a label column value
gets that value, not the override, and the video URL is built normally. -/
theorem c10_witness :
    extract_videos_from_dataset
      (.single ⟨none, [[("video", .str "v.mp4"), ("lab", .str "cat")]]⟩)
      "d" "video" (some "lab") "train" none "L" (some "")
      = .ok [⟨"https://huggingface.co/datasets/d/resolve/main/v.mp4", "cat"⟩] :=
  c10_empty_change_label.2.2 [("video", .str "v.mp4"), ("lab", .str "cat")] "lab"
    (.str "v.mp4") "d" "video" "train" "L" (by decide) rfl

end HfDbToInput

namespace VideoDirToInput

theorem charListLe_refl : ∀ l : List Char, charListLe l l = true
  | [] => rfl
  | a :: as => by
    simp only [charListLe, lt_self_iff_false, if_false]
    exact charListLe_refl as

theorem charListLe_total : ∀ l1 l2 : List Char,
    charListLe l1 l2 = true ∨ charListLe l2 l1 = true
  | [], _ => Or.inl rfl
  | _ :: _, [] => Or.inr rfl
  | a :: as, b :: bs => by
    rcases lt_trichotomy a b with h | h | h
    · left
      simp [charListLe, h]
    · subst h
      rcases charListLe_total as bs with ih | ih
      · left
        simpa [charListLe] using ih
      · right
        simpa [charListLe] using ih
    · right
      simp [charListLe, h]

theorem charListLe_trans : ∀ l1 l2 l3 : List Char,
    charListLe l1 l2 = true → charListLe l2 l3 = true → charListLe l1 l3 = true
  | [], _, _ => fun _ _ => rfl
  | _ :: _, [], _ => fun h _ => by simp [charListLe] at h
  | _ :: _, _ :: _, [] => fun _ h => by simp [charListLe] at h
  | a :: as, b :: bs, c :: cs => fun h1 h2 => by
    simp only [charListLe] at h1 h2 ⊢
    rcases lt_trichotomy a b with hab | hab | hab
    · rcases lt_trichotomy b c with hbc | hbc | hbc
      · simp [lt_trans hab hbc]
      · subst hbc
        simp [hab]
      · rw [if_neg (asymm hbc), if_pos hbc] at h2
        cases h2
    · subst hab
      rw [if_neg (lt_irrefl a), if_neg (lt_irrefl a)] at h1
      rcases lt_trichotomy a c with hac | hac | hac
      · simp [hac]
      · subst hac
        rw [if_neg (lt_irrefl a), if_neg (lt_irrefl a)] at h2
        rw [if_neg (lt_irrefl a), if_neg (lt_irrefl a)]
        exact charListLe_trans as bs cs h1 h2
      · rw [if_neg (asymm hac), if_pos hac] at h2
        cases h2
    · rw [if_neg (asymm hab), if_pos hab] at h1
      cases h1

instance instIsTotalPyStrLe : IsTotal String (fun a b => pyStrLe a b = true) :=
  ⟨fun a b => charListLe_total a.data b.data⟩

instance instIsTransPyStrLe : IsTrans String (fun a b => pyStrLe a b = true) :=
  ⟨fun a b c => charListLe_trans a.data b.data c.data⟩

/-- C9: the directory-mode manifest carries the supplied label on every entry;
its video paths are exactly (as a multiset) the paths of the listed regular
files whose lowercased extension is a recognized video extension, and nothing
else; and they are sorted in code-point lexicographic order. -/
theorem c9_directory_mode (listing : List DirEntry) (label : String) :
    (∀ e ∈ create_json_input (find_video_files listing) label, e.label = label)
    ∧ ((create_json_input (find_video_files listing) label).map HfDbToInput.Entry.video).Perm
        ((listing.filter isVideoFile).map DirEntry.path)
    ∧ List.Sorted (fun a b => pyStrLe a b = true)
        ((create_json_input (find_video_files listing) label).map HfDbToInput.Entry.video) := by
  have hmap : (create_json_input (find_video_files listing) label).map HfDbToInput.Entry.video
      = find_video_files listing := by
    simp only [create_json_input, List.map_map]
    exact List.map_id _
  refine ⟨?_, ?_, ?_⟩
  · intro e he
    simp only [create_json_input, List.mem_map] at he
    obtain ⟨p, _, rfl⟩ := he
    rfl
  · rw [hmap]
    exact List.perm_insertionSort _ _
  · rw [hmap]
    exact List.sorted_insertionSort _ _

end VideoDirToInput
